import Mathlib

/-!
Shallow embedding of the ContainerFS FUSE client (`fuseclient/main.go`):
the in-memory node-identity cache (per-directory `active` maps holding
`refcount` entries with kernel/refs bookkeeping), the file handle state
machine (`handles`, `writers`, `cfile`), and the backend result-code
mapping of the dispatcher operations.

Backend calls are external; each operation takes the backend's integer
result code (and payload) as an explicit parameter.  Where a claim says a
path does not consult the backend, the operation's result additionally
carries a `Bool` recording whether the backend primitive was invoked on
the taken path.  Go maps are modelled as association lists (only lookup,
insert-or-replace, and delete are used); Go pointers to node objects are
modelled as ids into a heap (`FSState.nodes`), with fresh ids drawn from
`FSState.nextId`.  The `uint32`/`uint` counters of `File` are modelled as
`Nat` with explicit wrap-around at `2 ^ 32` / `2 ^ 64`.
-/

set_option maxHeartbeats 1000000

namespace ContainerFS

/-- Association-list lookup; models Go `m[k]` (comma-ok form). -/
def alookup {κ β : Type} [DecidableEq κ] : List (κ × β) → κ → Option β
  | [], _ => none
  | (k', v) :: t, k => if k' = k then some v else alookup t k

/-- Association-list delete; models Go `delete(m, k)`. -/
def aerase {κ β : Type} [DecidableEq κ] : List (κ × β) → κ → List (κ × β)
  | [], _ => []
  | (k', v) :: t, k => if k' = k then aerase t k else (k', v) :: aerase t k

/-- Association-list insert-or-replace; models Go `m[k] = v`. -/
def aset {κ β : Type} [DecidableEq κ] (m : List (κ × β)) (k : κ) (v : β) :
    List (κ × β) :=
  (k, v) :: aerase m k

abbrev NodeId := Nat

/-- Kernel-facing errors (`fuse.Errno(syscall.…)`) produced by the dispatcher. -/
inductive FuseErr where
  | ENOENT
  | EPERM
  | EEXIST
  | EIO
  | ENOSPC
deriving DecidableEq

/-- `refcount` from `main.go`: one entry of a directory's `active` map.
`node` is the cached child, `kernel` says whether the kernel currently
references it, `refs` is the pending-reference counter checked by
`forgetChild`.  The Go zero value is `kernel = false`, `refs = 0`. -/
structure Refcount where
  node : NodeId
  kernel : Bool
  refs : Nat
deriving DecidableEq

/-- In-memory node: the union of the mutable fields of Go's `dir` and
`File` structs (`active` is only populated for directories; the
`handles`/`writers`/`cfilePresent` triple only for files). -/
structure NodeSt where
  inode : Nat
  name : String
  parentId : Option NodeId
  isFile : Bool
  active : List (String × Refcount)
  handles : Nat
  writers : Nat
  cfilePresent : Bool
deriving DecidableEq

/-- The node heap: every live `dir`/`File` object, keyed by id, plus a
fresh-id counter used when an operation materializes a new node. -/
structure FSState where
  nodes : List (NodeId × NodeSt)
  nextId : NodeId
deriving DecidableEq

def getNode (st : FSState) (i : NodeId) : Option NodeSt :=
  alookup st.nodes i

/-- Mutate the node object `i` in place (a no-op if `i` is not live). -/
def updNode (st : FSState) (i : NodeId) (g : NodeSt → NodeSt) : FSState :=
  match getNode st i with
  | none => st
  | some n => { nodes := aset st.nodes i (g n), nextId := st.nextId }

/-- `node.setName` from `main.go`. -/
def setName (st : FSState) (i : NodeId) (s : String) : FSState :=
  updNode st i (fun n => { n with name := s })

/-- `node.setParentInode` from `main.go`. -/
def setParentId (st : FSState) (i : NodeId) (p : Option NodeId) : FSState :=
  updNode st i (fun n => { n with parentId := p })

/-- Mutate directory `i`'s `active` map in place. -/
def overActive (st : FSState) (i : NodeId)
    (g : List (String × Refcount) → List (String × Refcount)) : FSState :=
  updNode st i (fun n => { n with active := g n.active })

def getActive (st : FSState) (i : NodeId) : List (String × Refcount) :=
  match getNode st i with
  | some n => n.active
  | none => []

def nodeName (st : FSState) (i : NodeId) : Option String :=
  (getNode st i).map (fun n => n.name)

def nodeParent (st : FSState) (i : NodeId) : Option (Option NodeId) :=
  (getNode st i).map (fun n => n.parentId)

def nodeWriters (st : FSState) (i : NodeId) : Option Nat :=
  (getNode st i).map (fun n => n.writers)

/-- Result triple of `cfs.StatDirect(parentInode, name)`. -/
structure StatResp where
  ret : Int
  inodeType : Bool
  inode : Nat
deriving DecidableEq

/-- Result of `cfs.CreateFileDirect`: code plus the new session's inode. -/
structure CreateResp where
  ret : Int
  inode : Nat
deriving DecidableEq

/-- Result of `cfs.CreateDirDirect`. -/
structure MkdirResp where
  ret : Int
  inode : Nat
deriving DecidableEq

/-- `dir.reviveNode` from `main.go`: materialize a fresh `File` (zeroed
handle counters, no session) or a fresh `dir` (empty `active` map) for a
name found at the backend. -/
def reviveNodeData (did : NodeId) (inodeType : Bool) (inode : Nat)
    (name : String) : NodeSt :=
  if inodeType then
    { inode := inode, name := name, parentId := some did, isFile := true,
      active := [], handles := 0, writers := 0, cfilePresent := false }
  else
    { inode := inode, name := name, parentId := some did, isFile := false,
      active := [], handles := 0, writers := 0, cfilePresent := false }

/-- `dir.Lookup` from `main.go`.  `stat` is the backend's reply to
`StatDirect` (consulted only on a cache miss).  Returns the new state, the
looked-up node (or error), and whether `StatDirect` was invoked. -/
def dirLookup (st : FSState) (did : NodeId) (name : String) (stat : StatResp) :
    FSState × Except FuseErr NodeId × Bool :=
  match getNode st did with
  | none => (st, Except.error FuseErr.EIO, false)
  | some d =>
    match alookup d.active name with
    | some a => (st, Except.ok a.node, false)
    | none =>
      if stat.ret = 2 then (st, Except.error FuseErr.ENOENT, true)
      else if stat.ret ≠ 0 then (st, Except.error FuseErr.ENOENT, true)
      else
        let nid := st.nextId
        let st1 : FSState :=
          { nodes := aset st.nodes nid
              (reviveNodeData did stat.inodeType stat.inode name),
            nextId := nid + 1 }
        let st2 := overActive st1 did
          (fun m => aset m name { node := nid, kernel := true, refs := 0 })
        (st2, Except.ok nid, true)

/-- `dir.Create` from `main.go`: on backend success installs a fresh
`File` child with `handles = 1`, `writers = 1` and the session from the
create call; the `active` entry is a zero-valued `refcount`
(`kernel = false`, `refs = 0`). -/
def dirCreate (st : FSState) (did : NodeId) (name : String)
    (resp : CreateResp) : FSState × Except FuseErr NodeId :=
  match getNode st did with
  | none => (st, Except.error FuseErr.EIO)
  | some _ =>
    if resp.ret ≠ 0 then
      if resp.ret = 17 then (st, Except.error FuseErr.EEXIST)
      else (st, Except.error FuseErr.EIO)
    else
      let nid := st.nextId
      let child : NodeSt :=
        { inode := resp.inode, name := name, parentId := some did,
          isFile := true, active := [], handles := 1, writers := 1,
          cfilePresent := true }
      let st1 : FSState :=
        { nodes := aset st.nodes nid child, nextId := nid + 1 }
      let st2 := overActive st1 did
        (fun m => aset m name { node := nid, kernel := false, refs := 0 })
      (st2, Except.ok nid)

/-- `dir.Mkdir` from `main.go`.  Note the code tests `ret == -1` (not
`ret != 0`) for the generic-failure case, so any result code outside
`{-1, 1, 2, 17}` falls through to the success path. -/
def dirMkdir (st : FSState) (did : NodeId) (name : String)
    (resp : MkdirResp) : FSState × Except FuseErr NodeId :=
  if resp.ret = -1 then (st, Except.error FuseErr.EIO)
  else if resp.ret = 1 then (st, Except.error FuseErr.EPERM)
  else if resp.ret = 2 then (st, Except.error FuseErr.ENOENT)
  else if resp.ret = 17 then (st, Except.error FuseErr.EEXIST)
  else
    let nid := st.nextId
    let child : NodeSt :=
      { inode := resp.inode, name := name, parentId := some did,
        isFile := false, active := [], handles := 0, writers := 0,
        cfilePresent := false }
    let st1 : FSState :=
      { nodes := aset st.nodes nid child, nextId := nid + 1 }
    let st2 := overActive st1 did
      (fun m => aset m name { node := nid, kernel := true, refs := 0 })
    (st2, Except.ok nid)

/-- `dir.Remove` from `main.go`.  `ret` is the backend delete code (the
directory and file variants map codes identically); on success an
`active`-resident entry is evicted and its node's name cleared to the
empty sentinel. -/
def dirRemove (st : FSState) (did : NodeId) (name : String) (isDir : Bool)
    (ret : Int) : FSState × Option FuseErr :=
  if isDir then
    if ret ≠ 0 then
      (st, some (if ret = 2 then FuseErr.EPERM else FuseErr.EIO))
    else dirRemoveLocal st did name
  else
    if ret ≠ 0 then
      (st, some (if ret = 2 then FuseErr.EPERM else FuseErr.EIO))
    else dirRemoveLocal st did name
where
  dirRemoveLocal (st : FSState) (did : NodeId) (name : String) :
      FSState × Option FuseErr :=
    match getNode st did with
    | none => (st, none)
    | some d =>
      match alookup d.active name with
      | none => (st, none)
      | some a =>
        let st1 := overActive st did (fun m => aerase m name)
        let st2 := setName st1 a.node ""
        (st2, none)

/-- The backend code mapping shared by both `dir.Rename` branches. -/
def renameErr (ret : Int) : FuseErr :=
  if ret = 2 then FuseErr.ENOENT
  else if ret = 1 ∨ ret = 17 then FuseErr.EPERM
  else FuseErr.EIO

/-- `dir.Rename` from `main.go`.  `statRet` is the backend's
`StatDirect(newDid, newName)` code (0 means the destination name exists,
which aborts with a permission error); `renRet` is the `RenameDirect`
code.  The cross-directory branch removes the moved entry from the source
map and updates the node's `name`/`parent` fields, deliberately not
inserting it into the destination map; the same-directory branch first
clears the name of any node cached under `newName`, then moves the
`oldName` entry to the `newName` key. -/
def dirRename (st : FSState) (did : NodeId) (oldName : String)
    (newDid : NodeId) (newName : String) (statRet renRet : Int) :
    FSState × Option FuseErr :=
  if statRet = 0 then (st, some FuseErr.EPERM)
  else if newDid ≠ did then
    if renRet ≠ 0 then (st, some (renameErr renRet))
    else
      match getNode st did with
      | none => (st, none)
      | some d =>
        match alookup d.active oldName with
        | none => (st, none)
        | some aOld =>
          let st1 := overActive st did (fun m => aerase m oldName)
          let st2 := setName st1 aOld.node newName
          let st3 := setParentId st2 aOld.node (some newDid)
          (st3, none)
  else
    if renRet ≠ 0 then (st, some (renameErr renRet))
    else
      match getNode st did with
      | none => (st, none)
      | some d =>
        let st1 :=
          match alookup d.active newName with
          | some a => setName st a.node ""
          | none => st
        match alookup d.active oldName with
        | none => (st1, none)
        | some aOld =>
          let st2 := setName st1 aOld.node newName
          let st3 := overActive st2 did
            (fun m => aset (aerase m oldName) newName aOld)
          (st3, none)

/-- `dir.forgetChild` from `main.go`: a no-op for the empty sentinel name
or a non-resident name; otherwise clears the entry's kernel flag and
evicts the entry when its pending-reference counter is zero. -/
def forgetChild (st : FSState) (did : NodeId) (name : String) : FSState :=
  if name = "" then st
  else
    match getNode st did with
    | none => st
    | some d =>
      match alookup d.active name with
      | none => st
      | some a =>
        let st1 := overActive st did
          (fun m => aset m name { a with kernel := false })
        if a.refs = 0 then overActive st1 did (fun m => aerase m name)
        else st1

/-- The kernel FORGET dispatch for node `cid`.  In `main.go` only `dir`
implements `fs.NodeForgetter` — `File` has no `Forget` method — so a
forget addressed to a file node invokes nothing and changes no state.
For a directory node this is `dir.Forget`: a no-op on the root,
otherwise forwarding the node's current name to the parent's
`forgetChild`. -/
def nodeForget (st : FSState) (cid : NodeId) : FSState :=
  match getNode st cid with
  | none => st
  | some c =>
    if c.isFile then st
    else
      match c.parentId with
      | none => st
      | some pid => forgetChild st pid c.name

/-- Linux `os.O_WRONLY`. -/
def OWRONLY : Nat := 1

/-- Linux `os.O_RDWR`. -/
def ORDWR : Nat := 2

/-- Linux `os.O_TRUNC`. -/
def OTRUNC : Nat := 512

def UINT32 : Nat := 2 ^ 32

def UINT64 : Nat := 2 ^ 64

/-- The write-intent test the code performs on open/release flags:
`int(req.Flags)&os.O_WRONLY != 0 || int(req.Flags)&os.O_RDWR != 0`. -/
def writeIntent (flags : Nat) : Bool :=
  decide (Nat.land flags OWRONLY ≠ 0) || decide (Nat.land flags ORDWR ≠ 0)

/-- The mutable handle-machine fields of Go's `File` struct: `handles`
(`uint32`), `writers` (`uint`, 64-bit), and `cfile` (the backend session
pointer, `none` when closed). -/
structure FileHSt where
  handles : Nat
  writers : Nat
  cfile : Option Nat
deriving DecidableEq

/-- `File.Open` from `main.go`.  `ret`/`sess` are the backend's
`OpenFileDirect` reply (consulted only when transitioning from the closed
state; the `UpdateOpenFileDirect` notification of the other branch does
not change local state).  Note the code assigns `f.cfile` from the
backend reply even when `ret != 0`. -/
def fileOpen (f : FileHSt) (flags : Nat) (ret : Int) (sess : Option Nat) :
    FileHSt × Option FuseErr :=
  if Nat.land flags OTRUNC ≠ 0 then (f, some FuseErr.EPERM)
  else if 0 < f.writers ∧ writeIntent flags = true then
    (f, some FuseErr.EPERM)
  else if f.cfile = none ∧ f.handles = 0 then
    if ret ≠ 0 then ({ f with cfile := sess }, some FuseErr.EIO)
    else if writeIntent flags then
      ({ handles := (f.handles + 1) % UINT32,
         writers := (f.writers + 1) % UINT64, cfile := sess }, none)
    else
      ({ handles := (f.handles + 1) % UINT32,
         writers := f.writers, cfile := sess }, none)
  else if writeIntent flags then
    ({ handles := (f.handles + 1) % UINT32,
       writers := (f.writers + 1) % UINT64, cfile := f.cfile }, none)
  else
    ({ handles := (f.handles + 1) % UINT32,
       writers := f.writers, cfile := f.cfile }, none)

/-- `File.Release` from `main.go`: decrements `handles` (with `uint32`
wrap-around), on a write-capable release closes the session's
connections (presence unchanged) and decrements `writers`, and drops the
session reference once `handles` reaches zero.  Always reports success. -/
def relHandles (f : FileHSt) : Nat :=
  if f.handles = 0 then UINT32 - 1 else f.handles - 1

def relWriters (f : FileHSt) (flags : Nat) : Nat :=
  if writeIntent flags then
    (if f.writers = 0 then UINT64 - 1 else f.writers - 1)
  else f.writers

def fileRelease (f : FileHSt) (flags : Nat) : FileHSt :=
  if relHandles f = 0 then
    { handles := relHandles f, writers := relWriters f flags, cfile := none }
  else
    { handles := relHandles f, writers := relWriters f flags,
      cfile := f.cfile }

/-- An event of a `File`'s open/release history.  An open carries the
backend's `OpenFileDirect` reply for the case where it is consulted. -/
inductive FEv where
  | fopen (flags : Nat) (ret : Int) (sess : Option Nat)
  | frel (flags : Nat)
deriving DecidableEq

/-- Run a sequence of open/release events against a `File`; the `Bool`
records whether every open in the sequence succeeded (a release always
succeeds).  A failing open stops the run. -/
def frun (f : FileHSt) : List FEv → FileHSt × Bool
  | [] => (f, true)
  | FEv.fopen flags ret sess :: t =>
    match fileOpen f flags ret sess with
    | (f', none) => frun f' t
    | (f', some _) => (f', false)
  | FEv.frel flags :: t => frun (fileRelease f flags) t

/-- Number of opens in an event sequence. -/
def nOpens : List FEv → Nat
  | [] => 0
  | FEv.fopen _ _ _ :: t => nOpens t + 1
  | FEv.frel _ :: t => nOpens t

/-- Number of releases in an event sequence. -/
def nRels : List FEv → Nat
  | [] => 0
  | FEv.fopen _ _ _ :: t => nRels t
  | FEv.frel _ :: t => nRels t + 1

/-- The fields of the backend `cfs.CFile` session consulted by
`File.Read`: the current `FileSize` and the per-kernel-handle
`ReaderMap` of last offsets. -/
structure CFileSt where
  fileSize : Int
  readerMap : List (Nat × Int)
deriving DecidableEq

/-- `File.Read` from `main.go`, acting on the open session: lazily
installs a zero cursor for an unseen kernel handle, returns an empty
result immediately when `offset` equals `FileSize`, and otherwise
forwards to the backend `cfile.Read` (whose reply is passed in as
`bret`/`bdata`; a negative length is an I/O error).  Results: updated
session, returned bytes, error, and whether `cfile.Read` was invoked. -/
def cfileReadOp (c : CFileSt) (handle : Nat) (offset size : Int)
    (bret : Int) (bdata : List Nat) :
    CFileSt × List Nat × Option FuseErr × Bool :=
  let c1 :=
    match alookup c.readerMap handle with
    | some _ => c
    | none => { c with readerMap := aset c.readerMap handle 0 }
  if offset = c1.fileSize then (c1, [], none, false)
  else if bret < 0 then (c1, bdata, some FuseErr.EIO, true)
  else (c1, bdata, none, true)

/-- A file child node for building concrete example states. -/
def exFile (inode : Nat) (nm : String) (p : NodeId) : NodeSt :=
  { inode := inode, name := nm, parentId := some p, isFile := true,
    active := [], handles := 0, writers := 0, cfilePresent := false }

/-- A root directory node (Go's root has the empty name and no parent)
with the given `active` map. -/
def exRoot (m : List (String × Refcount)) : NodeSt :=
  { inode := 0, name := "", parentId := none, isFile := false,
    active := m, handles := 0, writers := 0, cfilePresent := false }

/-- A bare volume: just the root directory, no cached children. -/
def rootOnly : FSState :=
  { nodes := [(0, exRoot [])], nextId := 1 }

/-- Root caching one file child `"a"` (node 1, kernel-referenced). -/
def stA : FSState :=
  { nodes := [(0, exRoot [("a", { node := 1, kernel := true, refs := 0 })]),
              (1, exFile 11 "a" 0)],
    nextId := 2 }

/-- Root caching file children `"a"` (node 1) and `"b"` (node 2). -/
def stAB : FSState :=
  { nodes := [(0, exRoot [("a", { node := 1, kernel := true, refs := 0 }),
                          ("b", { node := 2, kernel := true, refs := 0 })]),
              (1, exFile 11 "a" 0),
              (2, exFile 12 "b" 0)],
    nextId := 3 }

/-- Root (id 0) caching file `"a"` (node 2), plus a second directory
`"d"` (node 1, empty cache) for cross-directory renames. -/
def stCross : FSState :=
  { nodes := [(0, exRoot [("a", { node := 2, kernel := true, refs := 0 })]),
              (1, { inode := 5, name := "d", parentId := some 0,
                    isFile := false, active := [], handles := 0,
                    writers := 0, cfilePresent := false }),
              (2, exFile 11 "a" 0)],
    nextId := 3 }

/-- Root (id 0) caching one directory child `"d"` (node 1,
kernel-referenced, pending counter zero). -/
def stD : FSState :=
  { nodes := [(0, exRoot [("d", { node := 1, kernel := true, refs := 0 })]),
              (1, { inode := 5, name := "d", parentId := some 0,
                    isFile := false, active := [], handles := 0,
                    writers := 0, cfilePresent := false })],
    nextId := 2 }

/-! ## Association-list lemmas -/

theorem alookup_aerase_ne {κ β : Type} [DecidableEq κ]
    (m : List (κ × β)) (k k' : κ) (h : k' ≠ k) :
    alookup (aerase m k) k' = alookup m k' := by
  induction m with
  | nil => rfl
  | cons p t ih =>
    obtain ⟨k0, v0⟩ := p
    by_cases h0 : k0 = k
    · subst h0
      have hne : ¬(k0 = k') := fun hkk => h hkk.symm
      simp [aerase, alookup, hne, ih]
    · simp [aerase, alookup, h0, ih]

theorem alookup_aerase_self {κ β : Type} [DecidableEq κ]
    (m : List (κ × β)) (k : κ) :
    alookup (aerase m k) k = none := by
  induction m with
  | nil => rfl
  | cons p t ih =>
    obtain ⟨k0, v0⟩ := p
    by_cases h0 : k0 = k
    · simpa [aerase, if_pos h0] using ih
    · simp [aerase, if_neg h0, alookup, h0, ih]

theorem alookup_aset_self {κ β : Type} [DecidableEq κ]
    (m : List (κ × β)) (k : κ) (v : β) :
    alookup (aset m k v) k = some v := by
  simp [aset, alookup]

theorem alookup_aset_ne {κ β : Type} [DecidableEq κ]
    (m : List (κ × β)) (k k' : κ) (v : β) (h : k' ≠ k) :
    alookup (aset m k v) k' = alookup m k' := by
  have hne : ¬(k = k') := fun hkk => h hkk.symm
  simp only [aset, alookup, if_neg hne]
  exact alookup_aerase_ne m k k' h

/-! ## Node-heap lemmas -/

theorem getNode_updNode (st : FSState) (i : NodeId) (g : NodeSt → NodeSt)
    (j : NodeId) :
    getNode (updNode st i g) j =
      if j = i then (getNode st i).map g else getNode st j := by
  unfold updNode
  cases h : getNode st i with
  | none =>
    by_cases hij : j = i
    · subst hij; simp [h]
    · simp [hij]
  | some n =>
    by_cases hij : j = i
    · subst hij; simp [getNode, h, alookup_aset_self]
    · simp [getNode, hij, alookup_aset_ne st.nodes i j (g n) hij]

theorem nextId_updNode (st : FSState) (i : NodeId) (g : NodeSt → NodeSt) :
    (updNode st i g).nextId = st.nextId := by
  unfold updNode
  cases h : getNode st i <;> rfl

theorem isSome_getNode_updNode (st : FSState) (i : NodeId)
    (g : NodeSt → NodeSt) (j : NodeId) :
    (getNode (updNode st i g) j).isSome = (getNode st j).isSome := by
  rw [getNode_updNode]
  by_cases hij : j = i
  · subst hij; cases getNode st j <;> simp
  · simp [hij]

theorem getActive_updNode_keep (st : FSState) (i : NodeId)
    (g : NodeSt → NodeSt) (hg : ∀ n, (g n).active = n.active) (j : NodeId) :
    getActive (updNode st i g) j = getActive st j := by
  unfold getActive
  rw [getNode_updNode]
  by_cases hij : j = i
  · subst hij; cases getNode st j with
    | none => simp
    | some n => simp [hg n]
  · simp [hij]

theorem getActive_setName (st : FSState) (i : NodeId) (s : String)
    (j : NodeId) : getActive (setName st i s) j = getActive st j := by
  unfold setName
  apply getActive_updNode_keep
  intro n
  rfl

theorem getActive_setParentId (st : FSState) (i : NodeId) (p : Option NodeId)
    (j : NodeId) : getActive (setParentId st i p) j = getActive st j := by
  unfold setParentId
  apply getActive_updNode_keep
  intro n
  rfl

theorem getActive_overActive_self (st : FSState) (i : NodeId)
    (g : List (String × Refcount) → List (String × Refcount))
    (h : (getNode st i).isSome = true) :
    getActive (overActive st i g) i = g (getActive st i) := by
  unfold getActive overActive
  rw [getNode_updNode]
  cases hn : getNode st i with
  | none => rw [hn] at h; simp at h
  | some n => simp

theorem getActive_overActive_ne (st : FSState) (i : NodeId)
    (g : List (String × Refcount) → List (String × Refcount))
    (j : NodeId) (h : j ≠ i) :
    getActive (overActive st i g) j = getActive st j := by
  unfold getActive overActive
  rw [getNode_updNode, if_neg h]

theorem nodeName_updNode_keep (st : FSState) (i : NodeId)
    (g : NodeSt → NodeSt) (hg : ∀ n, (g n).name = n.name) (j : NodeId) :
    nodeName (updNode st i g) j = nodeName st j := by
  unfold nodeName
  rw [getNode_updNode]
  by_cases hij : j = i
  · subst hij; cases getNode st j with
    | none => simp
    | some n => simp [hg n]
  · simp [hij]

theorem nodeName_overActive (st : FSState) (i : NodeId)
    (g : List (String × Refcount) → List (String × Refcount)) (j : NodeId) :
    nodeName (overActive st i g) j = nodeName st j := by
  unfold overActive
  apply nodeName_updNode_keep
  intro n
  rfl

theorem nodeName_setParentId (st : FSState) (i : NodeId) (p : Option NodeId)
    (j : NodeId) : nodeName (setParentId st i p) j = nodeName st j := by
  unfold setParentId
  apply nodeName_updNode_keep
  intro n
  rfl

theorem nodeName_setName_self (st : FSState) (i : NodeId) (s : String)
    (h : (getNode st i).isSome = true) :
    nodeName (setName st i s) i = some s := by
  unfold nodeName setName
  rw [getNode_updNode, if_pos rfl]
  cases hn : getNode st i with
  | none => rw [hn] at h; simp at h
  | some n => simp

theorem nodeName_setName_ne (st : FSState) (i : NodeId) (s : String)
    (j : NodeId) (h : j ≠ i) :
    nodeName (setName st i s) j = nodeName st j := by
  unfold nodeName setName
  rw [getNode_updNode, if_neg h]

theorem nodeParent_updNode_keep (st : FSState) (i : NodeId)
    (g : NodeSt → NodeSt) (hg : ∀ n, (g n).parentId = n.parentId)
    (j : NodeId) : nodeParent (updNode st i g) j = nodeParent st j := by
  unfold nodeParent
  rw [getNode_updNode]
  by_cases hij : j = i
  · subst hij; cases getNode st j with
    | none => simp
    | some n => simp [hg n]
  · simp [hij]

theorem nodeParent_setName (st : FSState) (i : NodeId) (s : String)
    (j : NodeId) : nodeParent (setName st i s) j = nodeParent st j := by
  unfold setName
  apply nodeParent_updNode_keep
  intro n
  rfl

theorem nodeParent_overActive (st : FSState) (i : NodeId)
    (g : List (String × Refcount) → List (String × Refcount)) (j : NodeId) :
    nodeParent (overActive st i g) j = nodeParent st j := by
  unfold overActive
  apply nodeParent_updNode_keep
  intro n
  rfl

theorem nodeParent_setParentId_self (st : FSState) (i : NodeId)
    (p : Option NodeId) (h : (getNode st i).isSome = true) :
    nodeParent (setParentId st i p) i = some p := by
  unfold nodeParent setParentId
  rw [getNode_updNode, if_pos rfl]
  cases hn : getNode st i with
  | none => rw [hn] at h; simp at h
  | some n => simp

/-! ## File handle state machine lemmas -/

theorem fileOpen_ok (f : FileHSt) (fl : Nat) (r : Int) (s : Option Nat)
    (f' : FileHSt)
    (hiff : f.cfile.isSome = true ↔ 0 < f.handles)
    (hlt : f.handles + 1 < UINT32)
    (hs : r = 0 → s.isSome = true)
    (hop : fileOpen f fl r s = (f', none)) :
    f'.handles = f.handles + 1
    ∧ (f'.cfile.isSome = true ↔ 0 < f'.handles) := by
  have hmod : (f.handles + 1) % UINT32 = f.handles + 1 := Nat.mod_eq_of_lt hlt
  unfold fileOpen at hop
  by_cases h1 : Nat.land fl OTRUNC ≠ 0
  · rw [if_pos h1] at hop
    simp at hop
  rw [if_neg h1] at hop
  by_cases h2 : 0 < f.writers ∧ writeIntent fl = true
  · rw [if_pos h2] at hop
    simp at hop
  rw [if_neg h2] at hop
  by_cases h3 : f.cfile = none ∧ f.handles = 0
  · rw [if_pos h3] at hop
    by_cases h4 : r ≠ 0
    · rw [if_pos h4] at hop
      simp at hop
    rw [if_neg h4] at hop
    have hsome : s.isSome = true := hs (by omega)
    by_cases h5 : writeIntent fl = true
    · rw [if_pos h5] at hop
      have hf' : f' =
          (⟨(f.handles + 1) % UINT32, (f.writers + 1) % UINT64, s⟩ :
            FileHSt) := by
        have h6 := congrArg Prod.fst hop
        exact h6.symm
      subst hf'
      refine ⟨hmod, ?_⟩
      simp only [hmod]
      constructor
      · intro _
        omega
      · intro _
        exact hsome
    · rw [if_neg h5] at hop
      have hf' : f' =
          (⟨(f.handles + 1) % UINT32, f.writers, s⟩ : FileHSt) := by
        have h6 := congrArg Prod.fst hop
        exact h6.symm
      subst hf'
      refine ⟨hmod, ?_⟩
      simp only [hmod]
      constructor
      · intro _
        omega
      · intro _
        exact hsome
  · rw [if_neg h3] at hop
    have hcf : f.cfile.isSome = true := by
      cases hc : f.cfile with
      | none =>
        have hh : f.handles = 0 := by
          by_contra hne
          have hpos := hiff.mpr (Nat.pos_of_ne_zero hne)
          rw [hc] at hpos
          simp at hpos
        exact absurd ⟨hc, hh⟩ h3
      | some v => rfl
    by_cases h5 : writeIntent fl = true
    · rw [if_pos h5] at hop
      have hf' : f' =
          (⟨(f.handles + 1) % UINT32, (f.writers + 1) % UINT64, f.cfile⟩ :
            FileHSt) := by
        have h6 := congrArg Prod.fst hop
        exact h6.symm
      subst hf'
      refine ⟨hmod, ?_⟩
      simp only [hmod]
      constructor
      · intro _
        omega
      · intro _
        exact hcf
    · rw [if_neg h5] at hop
      have hf' : f' =
          (⟨(f.handles + 1) % UINT32, f.writers, f.cfile⟩ : FileHSt) := by
        have h6 := congrArg Prod.fst hop
        exact h6.symm
      subst hf'
      refine ⟨hmod, ?_⟩
      simp only [hmod]
      constructor
      · intro _
        omega
      · intro _
        exact hcf

theorem fileRelease_ok (f : FileHSt) (fl : Nat)
    (hiff : f.cfile.isSome = true ↔ 0 < f.handles)
    (hpos : 0 < f.handles) :
    (fileRelease f fl).handles = f.handles - 1
    ∧ ((fileRelease f fl).cfile.isSome = true ↔
        0 < (fileRelease f fl).handles) := by
  have hrh : relHandles f = f.handles - 1 := by
    unfold relHandles
    rw [if_neg (by omega)]
  unfold fileRelease
  by_cases h0 : relHandles f = 0
  · rw [if_pos h0]
    refine ⟨hrh, ?_⟩
    simp [h0]
  · rw [if_neg h0]
    refine ⟨hrh, ?_⟩
    have hc : f.cfile.isSome = true := hiff.mpr hpos
    have hgt : 0 < f.handles - 1 := by omega
    simp [hc, hrh, hgt]

theorem nOpens_append (p q : List FEv) :
    nOpens (p ++ q) = nOpens p + nOpens q := by
  induction p with
  | nil => simp [nOpens]
  | cons e t ih =>
    cases e with
    | fopen fl r s => simp [nOpens, ih]; omega
    | frel fl => simp [nOpens, ih]

theorem nRels_append (p q : List FEv) :
    nRels (p ++ q) = nRels p + nRels q := by
  induction p with
  | nil => simp [nRels]
  | cons e t ih =>
    cases e with
    | fopen fl r s => simp [nRels, ih]
    | frel fl => simp [nRels, ih]; omega

theorem frun_append_ok (p : List FEv) :
    ∀ (q : List FEv) (f : FileHSt),
      (frun f (p ++ q)).2 = true → (frun f p).2 = true := by
  induction p with
  | nil =>
    intro q f _
    rfl
  | cons e t ih =>
    intro q f hok
    cases e with
    | fopen fl r s =>
      cases hop : fileOpen f fl r s with
      | mk f' eo =>
        cases eo with
        | none =>
          rw [List.cons_append] at hok
          simp only [frun, hop] at hok ⊢
          exact ih q f' hok
        | some err =>
          rw [List.cons_append] at hok
          simp only [frun, hop] at hok
          exact absurd hok (by decide)
    | frel fl =>
      rw [List.cons_append] at hok
      simp only [frun] at hok ⊢
      exact ih q (fileRelease f fl) hok

theorem frun_inv (evs : List FEv) :
    ∀ (f : FileHSt),
      (f.cfile.isSome = true ↔ 0 < f.handles) →
      f.handles + nOpens evs < UINT32 →
      (∀ p q, p ++ q = evs → nRels p ≤ f.handles + nOpens p) →
      (∀ fl r s, FEv.fopen fl r s ∈ evs → r = 0 → s.isSome = true) →
      (frun f evs).2 = true →
      (frun f evs).1.handles + nRels evs = f.handles + nOpens evs
      ∧ ((frun f evs).1.cfile.isSome = true ↔
          0 < (frun f evs).1.handles) := by
  induction evs with
  | nil =>
    intro f hiff _ _ _ _
    exact ⟨rfl, hiff⟩
  | cons e t ih =>
    intro f hiff hbound hpre hsess hok
    cases e with
    | fopen fl r s =>
      cases hop : fileOpen f fl r s with
      | mk f' eo =>
        cases eo with
        | some err =>
          simp only [frun, hop] at hok
          exact absurd hok (by decide)
        | none =>
          have hrun : frun f (FEv.fopen fl r s :: t) = frun f' t := by
            simp only [frun, hop]
          have hn : nOpens (FEv.fopen fl r s :: t) = nOpens t + 1 := rfl
          have hr : nRels (FEv.fopen fl r s :: t) = nRels t := rfl
          have hlt : f.handles + 1 < UINT32 := by
            rw [hn] at hbound
            omega
          obtain ⟨hh, hiff'⟩ := fileOpen_ok f fl r s f' hiff hlt
            (fun h0 => hsess fl r s (List.mem_cons_self _ _) h0) hop
          have hok' : (frun f' t).2 = true := by
            rw [hrun] at hok
            exact hok
          have hbound' : f'.handles + nOpens t < UINT32 := by
            rw [hn] at hbound
            rw [hh]
            omega
          have hpre' : ∀ p q, p ++ q = t → nRels p ≤ f'.handles + nOpens p := by
            intro p q hpq
            have := hpre (FEv.fopen fl r s :: p) q (by rw [List.cons_append, hpq])
            have hr2 : nRels (FEv.fopen fl r s :: p) = nRels p := rfl
            have hn2 : nOpens (FEv.fopen fl r s :: p) = nOpens p + 1 := rfl
            rw [hr2, hn2] at this
            omega
          have hsess' : ∀ fl2 r2 s2, FEv.fopen fl2 r2 s2 ∈ t → r2 = 0 →
              s2.isSome = true := by
            intro fl2 r2 s2 hm h0
            exact hsess fl2 r2 s2 (List.mem_cons_of_mem _ hm) h0
          obtain ⟨ha, hb⟩ := ih f' hiff' hbound' hpre' hsess' hok'
          rw [hrun, hn, hr]
          exact ⟨by omega, hb⟩
    | frel fl =>
      have hrun : frun f (FEv.frel fl :: t) = frun (fileRelease f fl) t := rfl
      have hn : nOpens (FEv.frel fl :: t) = nOpens t := rfl
      have hr : nRels (FEv.frel fl :: t) = nRels t + 1 := rfl
      have hpos : 0 < f.handles := by
        have := hpre [FEv.frel fl] t rfl
        have h1 : nRels [FEv.frel fl] = 1 := rfl
        have h2 : nOpens [FEv.frel fl] = 0 := rfl
        rw [h1, h2] at this
        omega
      obtain ⟨hh, hiff'⟩ := fileRelease_ok f fl hiff hpos
      have hok' : (frun (fileRelease f fl) t).2 = true := by
        rw [hrun] at hok
        exact hok
      have hbound' : (fileRelease f fl).handles + nOpens t < UINT32 := by
        rw [hh]
        rw [hn] at hbound
        omega
      have hpre' : ∀ p q, p ++ q = t →
          nRels p ≤ (fileRelease f fl).handles + nOpens p := by
        intro p q hpq
        have := hpre (FEv.frel fl :: p) q (by rw [List.cons_append, hpq])
        have hr2 : nRels (FEv.frel fl :: p) = nRels p + 1 := rfl
        have hn2 : nOpens (FEv.frel fl :: p) = nOpens p := rfl
        rw [hr2, hn2] at this
        rw [hh]
        omega
      have hsess' : ∀ fl2 r2 s2, FEv.fopen fl2 r2 s2 ∈ t → r2 = 0 →
          s2.isSome = true := by
        intro fl2 r2 s2 hm h0
        exact hsess fl2 r2 s2 (List.mem_cons_of_mem _ hm) h0
      obtain ⟨ha, hb⟩ := ih (fileRelease f fl) hiff' hbound' hpre' hsess' hok'
      rw [hrun, hn, hr]
      refine ⟨?_, hb⟩
      rw [hh] at ha
      omega

theorem nodeWriters_updNode_keep (st : FSState) (i : NodeId)
    (g : NodeSt → NodeSt) (hg : ∀ n, (g n).writers = n.writers)
    (j : NodeId) : nodeWriters (updNode st i g) j = nodeWriters st j := by
  unfold nodeWriters
  rw [getNode_updNode]
  by_cases hij : j = i
  · subst hij
    cases getNode st j with
    | none => simp
    | some n => simp [hg n]
  · simp [hij]

theorem nodeWriters_overActive (st : FSState) (i : NodeId)
    (g : List (String × Refcount) → List (String × Refcount)) (j : NodeId) :
    nodeWriters (overActive st i g) j = nodeWriters st j := by
  unfold overActive
  apply nodeWriters_updNode_keep
  intro n
  rfl

theorem getNode_overActive_ne (st : FSState) (i : NodeId)
    (g : List (String × Refcount) → List (String × Refcount)) (j : NodeId)
    (h : j ≠ i) : getNode (overActive st i g) j = getNode st j := by
  unfold overActive
  rw [getNode_updNode, if_neg h]

theorem isSome_getNode_overActive (st : FSState) (i : NodeId)
    (g : List (String × Refcount) → List (String × Refcount)) (j : NodeId) :
    (getNode (overActive st i g) j).isSome = (getNode st j).isSome := by
  unfold overActive
  exact isSome_getNode_updNode st i _ j

theorem getNode_alloc_ne (st : FSState) (n : NodeSt) (j : NodeId)
    (h : j ≠ st.nextId) :
    getNode { nodes := aset st.nodes st.nextId n, nextId := st.nextId + 1 } j
      = getNode st j := by
  unfold getNode
  exact alookup_aset_ne st.nodes st.nextId j n h

theorem getNode_alloc_self (st : FSState) (n : NodeSt) :
    getNode { nodes := aset st.nodes st.nextId n, nextId := st.nextId + 1 }
      st.nextId = some n := by
  unfold getNode
  exact alookup_aset_self st.nodes st.nextId n

theorem getActive_alloc_insert (st : FSState) (did : NodeId) (d : NodeSt)
    (n : NodeSt) (nm : String) (e : Refcount)
    (hd : getNode st did = some d) (hfresh : did ≠ st.nextId) :
    getActive (overActive
        { nodes := aset st.nodes st.nextId n, nextId := st.nextId + 1 }
        did (fun m => aset m nm e)) did = aset d.active nm e := by
  have hg : getNode
      ({ nodes := aset st.nodes st.nextId n, nextId := st.nextId + 1 } :
        FSState) did = some d := by
    rw [getNode_alloc_ne st n did hfresh]
    exact hd
  have hsome : (getNode
      ({ nodes := aset st.nodes st.nextId n, nextId := st.nextId + 1 } :
        FSState) did).isSome = true := by
    rw [hg]
    rfl
  rw [getActive_overActive_self _ did _ hsome]
  have hact : getActive
      ({ nodes := aset st.nodes st.nextId n, nextId := st.nextId + 1 } :
        FSState) did = d.active := by
    unfold getActive
    rw [hg]
  rw [hact]

theorem isSome_getNode_setName (st : FSState) (i : NodeId) (sn : String)
    (j : NodeId) :
    (getNode (setName st i sn) j).isSome = (getNode st j).isSome := by
  unfold setName
  exact isSome_getNode_updNode st i _ j

/-! ## Per-operation helper lemmas -/

theorem fileOpen_second_writer_eperm (f : FileHSt) (flags : Nat) (ret : Int)
    (sess : Option Nat) (hw : 0 < f.writers) (hwi : writeIntent flags = true) :
    fileOpen f flags ret sess = (f, some FuseErr.EPERM) := by
  unfold fileOpen
  by_cases h1 : Nat.land flags OTRUNC ≠ 0
  · rw [if_pos h1]
  · rw [if_neg h1, if_pos ⟨hw, hwi⟩]

theorem fileOpen_writers_le_one (f : FileHSt) (flags : Nat) (ret : Int)
    (sess : Option Nat) (hw : f.writers ≤ 1) :
    (fileOpen f flags ret sess).1.writers ≤ 1 := by
  have hmod : (0 + 1) % UINT64 ≤ 1 := by
    norm_num [UINT64]
  unfold fileOpen
  by_cases h1 : Nat.land flags OTRUNC ≠ 0
  · rw [if_pos h1]
    exact hw
  rw [if_neg h1]
  by_cases h2 : 0 < f.writers ∧ writeIntent flags = true
  · rw [if_pos h2]
    exact hw
  rw [if_neg h2]
  by_cases h5 : writeIntent flags = true
  · have hw0 : f.writers = 0 := by
      by_contra hne
      exact h2 ⟨Nat.pos_of_ne_zero hne, h5⟩
    by_cases h3 : f.cfile = none ∧ f.handles = 0
    · rw [if_pos h3]
      by_cases h4 : ret ≠ 0
      · rw [if_pos h4]
        exact hw
      · rw [if_neg h4, if_pos h5]
        show (f.writers + 1) % UINT64 ≤ 1
        rw [hw0]
        exact hmod
    · rw [if_neg h3, if_pos h5]
      show (f.writers + 1) % UINT64 ≤ 1
      rw [hw0]
      exact hmod
  · by_cases h3 : f.cfile = none ∧ f.handles = 0
    · rw [if_pos h3]
      by_cases h4 : ret ≠ 0
      · rw [if_pos h4]
        exact hw
      · rw [if_neg h4, if_neg h5]
        exact hw
    · rw [if_neg h3, if_neg h5]
      exact hw

theorem fileRelease_writers_le_one (f : FileHSt) (flags : Nat)
    (hw : f.writers ≤ 1) (hrel : writeIntent flags = true → 0 < f.writers) :
    (fileRelease f flags).writers ≤ 1 := by
  have hrw : relWriters f flags ≤ 1 := by
    unfold relWriters
    by_cases h5 : writeIntent flags = true
    · rw [if_pos h5]
      have hp := hrel h5
      rw [if_neg (by omega)]
      omega
    · rw [if_neg h5]
      exact hw
  unfold fileRelease
  by_cases h0 : relHandles f = 0
  · rw [if_pos h0]
    exact hrw
  · rw [if_neg h0]
    exact hrw

theorem dirCreate_writers (st : FSState) (did : NodeId) (nm : String)
    (resp : CreateResp) (hd : (getNode st did).isSome = true)
    (hr : resp.ret = 0) :
    nodeWriters (dirCreate st did nm resp).1 st.nextId = some 1 := by
  unfold dirCreate
  cases hdn : getNode st did with
  | none =>
    rw [hdn] at hd
    simp at hd
  | some d =>
    simp only [hr]
    rw [if_neg (show ¬((0 : Int) ≠ 0) by simp)]
    change nodeWriters (overActive _ did _) st.nextId = some 1
    rw [nodeWriters_overActive]
    unfold nodeWriters getNode
    simp [alookup_aset_self]

theorem dirLookup_miss_result (st : FSState) (did : NodeId) (d : NodeSt)
    (nm : String) (stat : StatResp) (r : NodeId)
    (hd : getNode st did = some d) (hmiss : alookup d.active nm = none)
    (h : (dirLookup st did nm stat).2.1 = Except.ok r) : r = st.nextId := by
  unfold dirLookup at h
  rw [hd] at h
  simp only [hmiss] at h
  by_cases h2 : stat.ret = 2
  · rw [if_pos h2] at h
    simp at h
  rw [if_neg h2] at h
  by_cases h0 : stat.ret ≠ 0
  · rw [if_pos h0] at h
    simp at h
  rw [if_neg h0] at h
  injection h with h2
  exact h2.symm

/-! ## Claim theorems -/

/-- C1: for a name resident in a directory's `active` map, `Lookup`
returns exactly the stored node, leaves the whole state unchanged, and
does not invoke the backend `StatDirect` (the result is the same for
every possible backend reply and the invocation flag is `false`); hence
two Lookups of the same name with no intervening remove/rename/forget
return the same node identity. -/
theorem lookup_resident_identity (st : FSState) (did : NodeId) (d : NodeSt)
    (nm : String) (a : Refcount)
    (hd : getNode st did = some d)
    (ha : alookup d.active nm = some a) :
    (∀ stat : StatResp,
        dirLookup st did nm stat = (st, Except.ok a.node, false))
    ∧ ∀ stat1 stat2 : StatResp,
        (dirLookup (dirLookup st did nm stat1).1 did nm stat2).2.1 =
          (dirLookup st did nm stat1).2.1 := by
  have h1 : ∀ stat : StatResp,
      dirLookup st did nm stat = (st, Except.ok a.node, false) := by
    intro stat
    unfold dirLookup
    rw [hd]
    simp [ha]
  refine ⟨h1, ?_⟩
  intro stat1 stat2
  rw [h1 stat1]
  rw [h1 stat2]

/-- C1 witness: looking up the resident name `"a"` in the root of `stA`
ignores the backend reply and returns node 1 with the state unchanged. -/
theorem lookup_resident_identity_witness :
    dirLookup stA 0 "a" { ret := 0, inodeType := true, inode := 99 } =
      (stA, Except.ok 1, false) := by
  have h := lookup_resident_identity stA 0
    (exRoot [("a", { node := 1, kernel := true, refs := 0 })]) "a"
    { node := 1, kernel := true, refs := 0 } (by decide) (by decide)
  exact h.1 { ret := 0, inodeType := true, inode := 99 }

/-- C2: single-writer exclusivity.  (1) An `Open` with write intent while
`writers > 0` returns the permission error and leaves the file state
(handle count, writer count, backend session) entirely unchanged; (2)/(3)
`Open` and `Release` preserve `writers ≤ 1` (a release carrying write
flags only arises for a handle that was opened for writing, i.e. while
`writers > 0`); (4) the file node installed by a successful `Create`
starts with `writers = 1`. -/
theorem single_writer_exclusivity :
    (∀ (f : FileHSt) (flags : Nat) (ret : Int) (sess : Option Nat),
        0 < f.writers → writeIntent flags = true →
        fileOpen f flags ret sess = (f, some FuseErr.EPERM))
    ∧ (∀ (f : FileHSt) (flags : Nat) (ret : Int) (sess : Option Nat),
        f.writers ≤ 1 → (fileOpen f flags ret sess).1.writers ≤ 1)
    ∧ (∀ (f : FileHSt) (flags : Nat),
        f.writers ≤ 1 → (writeIntent flags = true → 0 < f.writers) →
        (fileRelease f flags).writers ≤ 1)
    ∧ (∀ (st : FSState) (did : NodeId) (nm : String) (resp : CreateResp),
        (getNode st did).isSome = true → resp.ret = 0 →
        nodeWriters (dirCreate st did nm resp).1 st.nextId = some 1) :=
  ⟨fileOpen_second_writer_eperm, fileOpen_writers_le_one,
   fileRelease_writers_le_one, dirCreate_writers⟩

/-- C2 witness: a write-intent open against a file with one writer is
rejected unchanged; the invariant bound and the create initialization
hold on concrete inputs. -/
theorem single_writer_exclusivity_witness :
    fileOpen { handles := 1, writers := 1, cfile := some 7 } 1 0 (some 9) =
      ({ handles := 1, writers := 1, cfile := some 7 }, some FuseErr.EPERM)
    ∧ (fileOpen { handles := 1, writers := 0, cfile := some 7 } 2 0
        (some 9)).1.writers ≤ 1
    ∧ (fileRelease { handles := 1, writers := 1, cfile := some 7 } 1).writers ≤ 1
    ∧ nodeWriters (dirCreate rootOnly 0 "a" { ret := 0, inode := 7 }).1
        rootOnly.nextId = some 1 :=
  ⟨single_writer_exclusivity.1 { handles := 1, writers := 1, cfile := some 7 }
      1 0 (some 9) (by decide) (by decide),
   single_writer_exclusivity.2.1 { handles := 1, writers := 0, cfile := some 7 }
      2 0 (some 9) (by decide),
   single_writer_exclusivity.2.2.1 { handles := 1, writers := 1, cfile := some 7 }
      1 (by decide) (fun _ => by decide),
   single_writer_exclusivity.2.2.2 rootOnly 0 "a" { ret := 0, inode := 7 }
      (by decide) rfl⟩

/-- C3: handle accounting.  For any event sequence whose releases never
outnumber its opens (prefix-wise, starting from a state satisfying the
session-presence invariant — e.g. the closed state or the state right
after a `Create`, whose one open handle counts as an open) in which every
open succeeded, the handle count satisfies exact accounting at every
prefix (`handles + releases = start + opens`, so it never underflows) and
the backend session is present after the run iff `handles > 0`.  The
counters are 32-bit, so the open count is taken below `2 ^ 32`; a
successful backend open is assumed to deliver a session. -/
theorem handle_accounting (f : FileHSt) (evs : List FEv)
    (hiff : f.cfile.isSome = true ↔ 0 < f.handles)
    (hbound : f.handles + nOpens evs < UINT32)
    (hpre : ∀ p q, p ++ q = evs → nRels p ≤ f.handles + nOpens p)
    (hsess : ∀ fl r s, FEv.fopen fl r s ∈ evs → r = 0 → s.isSome = true)
    (hok : (frun f evs).2 = true) :
    (∀ p q, p ++ q = evs →
        (frun f p).1.handles + nRels p = f.handles + nOpens p)
    ∧ ((frun f evs).1.cfile.isSome = true ↔ 0 < (frun f evs).1.handles) := by
  constructor
  · intro p q hpq
    have hokp : (frun f p).2 = true := by
      rw [← hpq] at hok
      exact frun_append_ok p q f hok
    have hboundp : f.handles + nOpens p < UINT32 := by
      have hna := nOpens_append p q
      rw [← hpq, hna] at hbound
      omega
    have hprep : ∀ p1 q1, p1 ++ q1 = p → nRels p1 ≤ f.handles + nOpens p1 := by
      intro p1 q1 h1
      exact hpre p1 (q1 ++ q) (by rw [← List.append_assoc, h1, hpq])
    have hsessp : ∀ fl r sx, FEv.fopen fl r sx ∈ p → r = 0 →
        sx.isSome = true := by
      intro fl r sx hm h0
      refine hsess fl r sx ?_ h0
      rw [← hpq]
      exact List.mem_append_left q hm
    exact (frun_inv p f hiff hboundp hprep hsessp hokp).1
  · exact (frun_inv evs f hiff hbound hpre hsess hok).2

/-- C3 witness: one successful open starting from the closed state gives
`handles = 1` with the session present. -/
theorem handle_accounting_witness :
    (frun { handles := 0, writers := 0, cfile := none }
        [FEv.fopen 1 0 (some 5)]).1.handles +
      nRels [FEv.fopen 1 0 (some 5)] =
      FileHSt.handles { handles := 0, writers := 0, cfile := none } +
        nOpens [FEv.fopen 1 0 (some 5)]
    ∧ ((frun { handles := 0, writers := 0, cfile := none }
          [FEv.fopen 1 0 (some 5)]).1.cfile.isSome = true ↔
        0 < (frun { handles := 0, writers := 0, cfile := none }
          [FEv.fopen 1 0 (some 5)]).1.handles) := by
  have hpre : ∀ p q : List FEv, p ++ q = [FEv.fopen 1 0 (some 5)] →
      nRels p ≤ FileHSt.handles { handles := 0, writers := 0, cfile := none }
        + nOpens p := by
    intro p q hpq
    cases p with
    | nil => exact Nat.zero_le _
    | cons a p' =>
      rw [List.cons_append] at hpq
      injection hpq with ha htail
      obtain ⟨hp', hq⟩ := List.append_eq_nil.mp htail
      subst ha
      subst hp'
      decide
  have hsess : ∀ (fl : Nat) (r : Int) (sx : Option Nat),
      FEv.fopen fl r sx ∈ [FEv.fopen 1 0 (some 5)] → r = 0 →
      sx.isSome = true := by
    intro fl r sx hm _
    rw [List.mem_singleton] at hm
    injection hm with h1 h2 h3
    subst h3
    rfl
  have h := handle_accounting { handles := 0, writers := 0, cfile := none }
    [FEv.fopen 1 0 (some 5)] (by decide) (by decide) hpre hsess (by decide)
  exact ⟨h.1 [FEv.fopen 1 0 (some 5)] [] rfl, h.2⟩

/-- C9: a read at `offset == FileSize` on an open session returns zero
bytes and no error, for every requested size and every possible backend
reply, without invoking the backend read primitive. -/
theorem read_at_eof (c : CFileSt) (handle : Nat) (offset size bret : Int)
    (bdata : List Nat) (h : offset = c.fileSize) :
    (cfileReadOp c handle offset size bret bdata).2.1 = []
    ∧ (cfileReadOp c handle offset size bret bdata).2.2.1 = none
    ∧ (cfileReadOp c handle offset size bret bdata).2.2.2 = false := by
  unfold cfileReadOp
  cases hm : alookup c.readerMap handle <;> simp [h]

/-- C9 witness: reading at offset 10 of a 10-byte file returns nothing,
no error, and no backend call, even for a large requested size and an
arbitrary backend reply. -/
theorem read_at_eof_witness :
    (cfileReadOp { fileSize := 10, readerMap := [] } 3 10 4096 7
        [1, 2]).2.1 = []
    ∧ (cfileReadOp { fileSize := 10, readerMap := [] } 3 10 4096 7
        [1, 2]).2.2.1 = none
    ∧ (cfileReadOp { fileSize := 10, readerMap := [] } 3 10 4096 7
        [1, 2]).2.2.2 = false :=
  read_at_eof { fileSize := 10, readerMap := [] } 3 10 4096 7 [1, 2] rfl

/-- C4 counterexample: backend code 3 — non-zero and outside
`{-1, 1, 2, 17}` — is treated as success by `Mkdir` (the code only tests
`ret == -1` for the generic case): a new directory node is installed and
returned, not the generic I/O error the claim requires for every other
non-zero code. -/
theorem mkdir_unknown_code_cex :
    (dirMkdir rootOnly 0 "x" { ret := 3, inode := 7 }).2 = Except.ok 1
    ∧ alookup
        (getActive (dirMkdir rootOnly 0 "x" { ret := 3, inode := 7 }).1 0)
        "x" = some { node := 1, kernel := true, refs := 0 }
    ∧ ¬((dirMkdir rootOnly 0 "x" { ret := 3, inode := 7 }).2 =
        Except.error FuseErr.EIO) := by
  refine ⟨rfl, by decide, ?_⟩
  intro h
  exact Except.noConfusion h

/-- C4 amended: `Mkdir` maps backend code -1 to the generic I/O error,
1 to the permission error, 2 to not-found, and 17 to already-exists,
leaving the state untouched in each of these cases; every code outside
`{-1, 1, 2, 17}` — 0, but also any other code such as 3 — is treated as
success and installs a new directory node into the children map
(kernel-referenced, pending counter zero). -/
theorem mkdir_code_mapping (st : FSState) (did : NodeId) (d : NodeSt)
    (nm : String) (resp : MkdirResp)
    (hd : getNode st did = some d)
    (hfresh : did ≠ st.nextId) :
    (resp.ret = -1 →
      dirMkdir st did nm resp = (st, Except.error FuseErr.EIO))
    ∧ (resp.ret = 1 →
      dirMkdir st did nm resp = (st, Except.error FuseErr.EPERM))
    ∧ (resp.ret = 2 →
      dirMkdir st did nm resp = (st, Except.error FuseErr.ENOENT))
    ∧ (resp.ret = 17 →
      dirMkdir st did nm resp = (st, Except.error FuseErr.EEXIST))
    ∧ (resp.ret ≠ -1 → resp.ret ≠ 1 → resp.ret ≠ 2 → resp.ret ≠ 17 →
      (dirMkdir st did nm resp).2 = Except.ok st.nextId
      ∧ alookup (getActive (dirMkdir st did nm resp).1 did) nm =
          some { node := st.nextId, kernel := true, refs := 0 }) := by
  refine ⟨?_, ?_, ?_, ?_, ?_⟩
  · intro h
    unfold dirMkdir
    rw [if_pos h]
  · intro h
    unfold dirMkdir
    rw [if_neg (by rw [h]; decide), if_pos h]
  · intro h
    unfold dirMkdir
    rw [if_neg (by rw [h]; decide), if_neg (by rw [h]; decide), if_pos h]
  · intro h
    unfold dirMkdir
    rw [if_neg (by rw [h]; decide), if_neg (by rw [h]; decide),
      if_neg (by rw [h]; decide), if_pos h]
  · intro h1 h2 h3 h4
    unfold dirMkdir
    rw [if_neg h1, if_neg h2, if_neg h3, if_neg h4]
    refine ⟨rfl, ?_⟩
    have hstep := getActive_alloc_insert st did d
      { inode := resp.inode, name := nm, parentId := some did,
        isFile := false, active := [], handles := 0, writers := 0,
        cfilePresent := false } nm
      { node := st.nextId, kernel := true, refs := 0 } hd hfresh
    rw [hstep]
    exact alookup_aset_self d.active nm _

/-- C4 amended-claim witness: the four failure codes map as stated and
code 0 installs the child, on the bare root volume. -/
theorem mkdir_code_mapping_witness :
    dirMkdir rootOnly 0 "x" { ret := -1, inode := 7 } =
      (rootOnly, Except.error FuseErr.EIO)
    ∧ dirMkdir rootOnly 0 "x" { ret := 1, inode := 7 } =
      (rootOnly, Except.error FuseErr.EPERM)
    ∧ dirMkdir rootOnly 0 "x" { ret := 2, inode := 7 } =
      (rootOnly, Except.error FuseErr.ENOENT)
    ∧ dirMkdir rootOnly 0 "x" { ret := 17, inode := 7 } =
      (rootOnly, Except.error FuseErr.EEXIST)
    ∧ (dirMkdir rootOnly 0 "x" { ret := 0, inode := 7 }).2 = Except.ok 1 := by
  have hm1 := mkdir_code_mapping rootOnly 0 (exRoot []) "x"
    { ret := -1, inode := 7 } (by decide) (by decide)
  have hp := mkdir_code_mapping rootOnly 0 (exRoot []) "x"
    { ret := 1, inode := 7 } (by decide) (by decide)
  have hn := mkdir_code_mapping rootOnly 0 (exRoot []) "x"
    { ret := 2, inode := 7 } (by decide) (by decide)
  have he := mkdir_code_mapping rootOnly 0 (exRoot []) "x"
    { ret := 17, inode := 7 } (by decide) (by decide)
  have h0 := mkdir_code_mapping rootOnly 0 (exRoot []) "x"
    { ret := 0, inode := 7 } (by decide) (by decide)
  exact ⟨hm1.1 rfl, hp.2.1 rfl, hn.2.2.1 rfl, he.2.2.2.1 rfl,
    (h0.2.2.2.2 (by decide) (by decide) (by decide) (by decide)).1⟩

/-- C5: when the backend delete succeeds and the name is resident,
`Remove` evicts the entry from the children map and clears the detached
node's name to the empty sentinel; a subsequent `Lookup` of that name in
the directory can only return a freshly materialized node (the next free
id), never the detached node. -/
theorem remove_detaches (st : FSState) (did : NodeId) (d cn : NodeSt)
    (nm : String) (a : Refcount) (isDir : Bool)
    (hd : getNode st did = some d)
    (ha : alookup d.active nm = some a)
    (hn : getNode st a.node = some cn)
    (hfresh : a.node ≠ st.nextId) :
    (dirRemove st did nm isDir 0).2 = none
    ∧ alookup (getActive (dirRemove st did nm isDir 0).1 did) nm = none
    ∧ nodeName (dirRemove st did nm isDir 0).1 a.node = some ""
    ∧ ∀ (stat : StatResp) (r : NodeId),
        (dirLookup (dirRemove st did nm isDir 0).1 did nm stat).2.1 =
          Except.ok r → r ≠ a.node := by
  have hloc : dirRemove st did nm isDir 0 =
      dirRemove.dirRemoveLocal st did nm := by
    unfold dirRemove
    cases isDir <;> simp
  have hres : dirRemove.dirRemoveLocal st did nm =
      (setName (overActive st did (fun m => aerase m nm)) a.node "",
        none) := by
    unfold dirRemove.dirRemoveLocal
    rw [hd]
    simp [ha]
  have h1 : getNode (overActive st did (fun m => aerase m nm)) did =
      some { d with active := aerase d.active nm } := by
    unfold overActive
    rw [getNode_updNode, if_pos rfl, hd]
    rfl
  have hsome1 : (getNode (overActive st did (fun m => aerase m nm))
      a.node).isSome = true := by
    rw [isSome_getNode_overActive, hn]
    rfl
  refine ⟨?_, ?_, ?_, ?_⟩
  · rw [hloc, hres]
  · rw [hloc, hres]
    have hga : getActive (setName (overActive st did (fun m => aerase m nm))
        a.node "") did =
        getActive (overActive st did (fun m => aerase m nm)) did :=
      getActive_setName _ a.node "" did
    rw [hga]
    have : getActive (overActive st did (fun m => aerase m nm)) did =
        aerase d.active nm := by
      unfold getActive
      rw [h1]
    rw [this]
    exact alookup_aerase_self d.active nm
  · rw [hloc, hres]
    exact nodeName_setName_self _ a.node "" hsome1
  · intro stat r hlk
    rw [hloc, hres] at hlk
    obtain ⟨d2, hd2, hmiss2⟩ : ∃ d2,
        getNode (setName (overActive st did (fun m => aerase m nm))
          a.node "") did = some d2 ∧ alookup d2.active nm = none := by
      unfold setName
      rw [getNode_updNode]
      by_cases had : did = a.node
      · rw [if_pos had, ← had, h1]
        exact ⟨_, rfl, alookup_aerase_self d.active nm⟩
      · rw [if_neg had, h1]
        exact ⟨_, rfl, alookup_aerase_self d.active nm⟩
    have hr := dirLookup_miss_result _ did d2 nm stat r hd2 hmiss2 hlk
    have hnx : (setName (overActive st did (fun m => aerase m nm))
        a.node "").nextId = st.nextId := by
      unfold setName overActive
      rw [nextId_updNode, nextId_updNode]
    rw [hnx] at hr
    rw [hr]
    exact fun he => hfresh he.symm

/-- C5 witness: removing resident `"a"` from the root of `stA` evicts the
entry and detaches node 1. -/
theorem remove_detaches_witness :
    (dirRemove stA 0 "a" false 0).2 = none
    ∧ alookup (getActive (dirRemove stA 0 "a" false 0).1 0) "a" = none
    ∧ nodeName (dirRemove stA 0 "a" false 0).1 1 = some "" := by
  have h := remove_detaches stA 0
    (exRoot [("a", { node := 1, kernel := true, refs := 0 })])
    (exFile 11 "a" 0) "a" { node := 1, kernel := true, refs := 0 } false
    (by decide) (by decide) (by decide) (by decide)
  exact ⟨h.1, h.2.1, h.2.2.1⟩

/-- C7: a successful cross-directory rename removes the resident entry
from the source directory's map, updates the moved node's `name` to the
new name and its `parent` back-reference to the destination, and leaves
the destination directory's children map completely unchanged (the node
is not inserted there). -/
theorem rename_cross_frame (st : FSState) (did newDid : NodeId)
    (d cn : NodeSt) (oldN newN : String) (aOld : Refcount) (statRet : Int)
    (hne : newDid ≠ did)
    (hd : getNode st did = some d)
    (ha : alookup d.active oldN = some aOld)
    (hn : getNode st aOld.node = some cn)
    (hstat : statRet ≠ 0) :
    (dirRename st did oldN newDid newN statRet 0).2 = none
    ∧ alookup (getActive (dirRename st did oldN newDid newN statRet 0).1 did)
        oldN = none
    ∧ nodeName (dirRename st did oldN newDid newN statRet 0).1 aOld.node =
        some newN
    ∧ nodeParent (dirRename st did oldN newDid newN statRet 0).1 aOld.node =
        some (some newDid)
    ∧ getActive (dirRename st did oldN newDid newN statRet 0).1 newDid =
        getActive st newDid := by
  have hres : dirRename st did oldN newDid newN statRet 0 =
      (setParentId (setName (overActive st did (fun m => aerase m oldN))
        aOld.node newN) aOld.node (some newDid), none) := by
    unfold dirRename
    rw [if_neg hstat, if_pos hne]
    rw [if_neg (show ¬((0 : Int) ≠ 0) by simp)]
    rw [hd]
    simp [ha]
  have h1 : getNode (overActive st did (fun m => aerase m oldN)) did =
      some { d with active := aerase d.active oldN } := by
    unfold overActive
    rw [getNode_updNode, if_pos rfl, hd]
    rfl
  have hsomeA : (getNode (overActive st did (fun m => aerase m oldN))
      aOld.node).isSome = true := by
    rw [isSome_getNode_overActive, hn]
    rfl
  have hsomeB : (getNode (setName (overActive st did
      (fun m => aerase m oldN)) aOld.node newN) aOld.node).isSome = true := by
    rw [isSome_getNode_setName]
    exact hsomeA
  refine ⟨?_, ?_, ?_, ?_, ?_⟩
  · rw [hres]
  · rw [hres]
    rw [getActive_setParentId, getActive_setName]
    have hact : getActive (overActive st did (fun m => aerase m oldN)) did =
        aerase d.active oldN := by
      unfold getActive
      rw [h1]
    rw [hact]
    exact alookup_aerase_self d.active oldN
  · rw [hres]
    rw [nodeName_setParentId]
    exact nodeName_setName_self _ aOld.node newN hsomeA
  · rw [hres]
    exact nodeParent_setParentId_self _ aOld.node (some newDid) hsomeB
  · rw [hres]
    rw [getActive_setParentId, getActive_setName]
    exact getActive_overActive_ne st did _ newDid hne

/-- C7 witness: moving `"a"` from the root of `stCross` into directory 1
as `"b"` empties the root entry, retargets node 2, and leaves directory
1's (empty) map untouched. -/
theorem rename_cross_frame_witness :
    (dirRename stCross 0 "a" 1 "b" 2 0).2 = none
    ∧ alookup (getActive (dirRename stCross 0 "a" 1 "b" 2 0).1 0) "a" = none
    ∧ nodeName (dirRename stCross 0 "a" 1 "b" 2 0).1 2 = some "b"
    ∧ nodeParent (dirRename stCross 0 "a" 1 "b" 2 0).1 2 = some (some 1)
    ∧ getActive (dirRename stCross 0 "a" 1 "b" 2 0).1 1 =
        getActive stCross 1 := by
  have h := rename_cross_frame stCross 0 1
    (exRoot [("a", { node := 2, kernel := true, refs := 0 })])
    (exFile 11 "a" 0) "a" "b" { node := 2, kernel := true, refs := 0 } 2
    (by decide) (by decide) (by decide) (by decide) (by decide)
  exact h

/-- C6: completing a same-directory rename `a → b` with both names
resident (necessarily `a ≠ b`, and with distinct cached nodes, `a` being
the only key holding its node — as is the case in every reachable cache)
detaches the old `b` node (its name becomes the empty sentinel), stores
the node formerly at key `a` under key `b` with its name updated to `b`,
and leaves it under no other key. -/
theorem rename_displacement (st : FSState) (did : NodeId)
    (d naN nbN : NodeSt) (na nb : String) (aa ab : Refcount) (statRet : Int)
    (hd : getNode st did = some d)
    (hb : alookup d.active nb = some ab)
    (ha : alookup d.active na = some aa)
    (hdist : aa.node ≠ ab.node)
    (hna : getNode st aa.node = some naN)
    (hnb : getNode st ab.node = some nbN)
    (honly : ∀ k e, alookup d.active k = some e → e.node = aa.node → k = na)
    (hstat : statRet ≠ 0) :
    (dirRename st did na did nb statRet 0).2 = none
    ∧ nodeName (dirRename st did na did nb statRet 0).1 ab.node = some ""
    ∧ nodeName (dirRename st did na did nb statRet 0).1 aa.node = some nb
    ∧ alookup (getActive (dirRename st did na did nb statRet 0).1 did) nb =
        some aa
    ∧ ∀ k e, k ≠ nb →
        alookup (getActive (dirRename st did na did nb statRet 0).1 did) k =
          some e → e.node ≠ aa.node := by
  have hres : dirRename st did na did nb statRet 0 =
      (overActive (setName (setName st ab.node "") aa.node nb) did
        (fun m => aset (aerase m na) nb aa), none) := by
    unfold dirRename
    rw [if_neg hstat, if_neg (show ¬(did ≠ did) by simp)]
    rw [if_neg (show ¬((0 : Int) ≠ 0) by simp)]
    rw [hd]
    simp [hb, ha]
  have hsomeB : (getNode (setName st ab.node "") aa.node).isSome = true := by
    rw [isSome_getNode_setName, hna]
    rfl
  have hsomeD : (getNode (setName (setName st ab.node "") aa.node nb)
      did).isSome = true := by
    rw [isSome_getNode_setName, isSome_getNode_setName, hd]
    rfl
  have hactD : getActive (setName (setName st ab.node "") aa.node nb) did =
      d.active := by
    rw [getActive_setName, getActive_setName]
    unfold getActive
    rw [hd]
  have hactZ : getActive (overActive (setName (setName st ab.node "")
      aa.node nb) did (fun m => aset (aerase m na) nb aa)) did =
      aset (aerase d.active na) nb aa := by
    rw [getActive_overActive_self _ did _ hsomeD, hactD]
  refine ⟨?_, ?_, ?_, ?_, ?_⟩
  · rw [hres]
  · rw [hres]
    rw [nodeName_overActive]
    rw [nodeName_setName_ne _ aa.node nb ab.node (fun h => hdist h.symm)]
    exact nodeName_setName_self st ab.node "" (by rw [hnb]; rfl)
  · rw [hres]
    rw [nodeName_overActive]
    exact nodeName_setName_self _ aa.node nb hsomeB
  · rw [hres]
    rw [hactZ]
    exact alookup_aset_self _ nb aa
  · intro k e hk hke
    rw [hres] at hke
    rw [hactZ] at hke
    rw [alookup_aset_ne _ nb k aa hk] at hke
    by_cases hkna : k = na
    · rw [hkna, alookup_aerase_self] at hke
      exact absurd hke (by simp)
    · rw [alookup_aerase_ne d.active na k hkna] at hke
      intro he
      exact hkna (honly k e hke he)

/-- C6 witness: renaming `"a"` over resident `"b"` in the root of `stAB`
detaches node 2 and moves node 1 to key `"b"`. -/
theorem rename_displacement_witness :
    (dirRename stAB 0 "a" 0 "b" 2 0).2 = none
    ∧ nodeName (dirRename stAB 0 "a" 0 "b" 2 0).1 2 = some ""
    ∧ nodeName (dirRename stAB 0 "a" 0 "b" 2 0).1 1 = some "b"
    ∧ alookup (getActive (dirRename stAB 0 "a" 0 "b" 2 0).1 0) "b" =
        some { node := 1, kernel := true, refs := 0 } := by
  have honly : ∀ (k : String) (e : Refcount),
      alookup ([("a", { node := 1, kernel := true, refs := 0 }),
        ("b", { node := 2, kernel := true, refs := 0 })] :
        List (String × Refcount)) k = some e →
      e.node = (({ node := 1, kernel := true, refs := 0 } : Refcount)).node →
      k = "a" := by
    intro k e hk he
    simp only [alookup] at hk
    by_cases h1 : ("a" : String) = k
    · exact h1.symm
    · rw [if_neg h1] at hk
      by_cases h2 : ("b" : String) = k
      · rw [if_pos h2] at hk
        injection hk with hk2
        rw [← hk2] at he
        exact absurd he (by decide)
      · rw [if_neg h2] at hk
        exact Option.noConfusion hk
  have h := rename_displacement stAB 0
    (exRoot [("a", { node := 1, kernel := true, refs := 0 }),
             ("b", { node := 2, kernel := true, refs := 0 })])
    (exFile 11 "a" 0) (exFile 12 "b" 0) "a" "b"
    { node := 1, kernel := true, refs := 0 }
    { node := 2, kernel := true, refs := 0 } 2
    (by decide) (by decide) (by decide) (by decide) (by decide) (by decide)
    honly (by decide)
  exact ⟨h.1, h.2.1, h.2.2.1, h.2.2.2.1⟩

/-- C8 counterexample: node 1 of `stA` is a non-root *file* node with
name `"a"` resident in its parent's map and pending counter zero; the
claim requires its Forget to clear the kernel flag and evict the entry,
but `File` implements no `Forget` (only `dir` is an `fs.NodeForgetter`),
so the forget invokes nothing: the state is unchanged and the entry
survives with its kernel flag still `true`. -/
theorem forget_file_noop_cex :
    nodeForget stA 1 = stA
    ∧ alookup (getActive (nodeForget stA 1) 0) "a" =
        some { node := 1, kernel := true, refs := 0 } := by
  decide

/-- C8 amended: `Forget` on a non-root *directory* node whose
(non-sentinel) name is resident in its parent's children map sets the
entry's kernel flag false and evicts the entry exactly when its
pending-reference counter is zero; with a nonzero counter the entry
stays resident with its kernel flag cleared.  For *file* nodes no
`Forget` is implemented, so the kernel's forget invokes nothing and the
state — in particular the parent's entry — is unchanged. -/
theorem forget_eviction_dir :
    (∀ (st : FSState) (cid pid : NodeId) (c p : NodeSt) (a : Refcount),
      getNode st cid = some c → c.isFile = false →
      c.parentId = some pid → c.name ≠ "" →
      getNode st pid = some p → alookup p.active c.name = some a →
      alookup (getActive (nodeForget st cid) pid) c.name =
        (if a.refs = 0 then none else some { a with kernel := false }))
    ∧ (∀ (st : FSState) (cid : NodeId) (c : NodeSt),
      getNode st cid = some c → c.isFile = true →
      nodeForget st cid = st) := by
  constructor
  case right =>
    intro st cid c hc hfile
    unfold nodeForget
    rw [hc]
    simp [hfile]
  intro st cid pid c p a hc hdir hpar hname hp ha
  have hres : nodeForget st cid = forgetChild st pid c.name := by
    unfold nodeForget
    rw [hc]
    simp [hdir, hpar]
  have hres2 : forgetChild st pid c.name =
      (if a.refs = 0 then
        overActive (overActive st pid
          (fun m => aset m c.name { a with kernel := false })) pid
          (fun m => aerase m c.name)
      else overActive st pid
          (fun m => aset m c.name { a with kernel := false })) := by
    unfold forgetChild
    rw [if_neg hname, hp]
    simp [ha]
  have hsome1 : (getNode st pid).isSome = true := by
    rw [hp]
    rfl
  have hact1 : getActive (overActive st pid
      (fun m => aset m c.name { a with kernel := false })) pid =
      aset p.active c.name { a with kernel := false } := by
    rw [getActive_overActive_self st pid _ hsome1]
    unfold getActive
    rw [hp]
  rw [hres, hres2]
  by_cases h0 : a.refs = 0
  · rw [if_pos h0, if_pos h0]
    have hsome2 : (getNode (overActive st pid
        (fun m => aset m c.name { a with kernel := false })) pid).isSome =
        true := by
      rw [isSome_getNode_overActive]
      exact hsome1
    rw [getActive_overActive_self _ pid _ hsome2, hact1]
    exact alookup_aerase_self _ c.name
  · rw [if_neg h0, if_neg h0]
    rw [hact1]
    exact alookup_aset_self p.active c.name _

/-- C8 witness: forgetting directory node 1 (name `"d"`, pending counter
zero) evicts the root's `"d"` entry in `stD`; the forget addressed to
file node 1 of `stA` leaves the state unchanged. -/
theorem forget_eviction_dir_witness :
    alookup (getActive (nodeForget stD 1) 0) "d" = none
    ∧ nodeForget stA 1 = stA := by
  constructor
  · have h := forget_eviction_dir.1 stD 1 0
      { inode := 5, name := "d", parentId := some 0, isFile := false,
        active := [], handles := 0, writers := 0, cfilePresent := false }
      (exRoot [("d", { node := 1, kernel := true, refs := 0 })])
      { node := 1, kernel := true, refs := 0 }
      (by decide) rfl rfl (by decide) (by decide) (by decide)
    simpa using h
  · exact forget_eviction_dir.2 stA 1 (exFile 11 "a" 0) (by decide) rfl

/-- C10 counterexample: after `Create "a"` on the bare root — the entry
is installed with `kernel = false`, `refs = 0` and is never looked up —
the kernel's forget for the created child (a `File`, which implements no
`Forget`) invokes nothing, so the entry is *not* evicted: it is still
resident afterwards, refuting the claim's "still evicts its entry"
consequence. -/
theorem create_forget_noop_cex :
    alookup (getActive (nodeForget
        (dirCreate rootOnly 0 "a" { ret := 0, inode := 7 }).1 1) 0) "a" =
      some { node := 1, kernel := false, refs := 0 } := by
  decide

/-- C10 amended: the children-map entry that a successful `Create`
installs is a zero-valued `refcount` — kernel flag `false`, pending
counter 0 — whereas a cache-missing `Lookup` that finds the name at the
backend and a successful `Mkdir` both install entries with the kernel
flag `true`; however, a `Forget` arriving for a created-but-never-looked-
up child invokes nothing — the created child is a `File`, which
implements no `Forget` — so the state, in particular the resident entry,
is unchanged. -/
theorem create_refcount_flags (st : FSState) (did : NodeId) (d : NodeSt)
    (nm : String) (cresp : CreateResp) (stat : StatResp) (mresp : MkdirResp)
    (hd : getNode st did = some d)
    (hfresh : did ≠ st.nextId)
    (hcr : cresp.ret = 0)
    (hml : alookup d.active nm = none)
    (hst : stat.ret = 0)
    (hmr : mresp.ret = 0) :
    alookup (getActive (dirCreate st did nm cresp).1 did) nm =
        some { node := st.nextId, kernel := false, refs := 0 }
    ∧ alookup (getActive (dirLookup st did nm stat).1 did) nm =
        some { node := st.nextId, kernel := true, refs := 0 }
    ∧ alookup (getActive (dirMkdir st did nm mresp).1 did) nm =
        some { node := st.nextId, kernel := true, refs := 0 }
    ∧ nodeForget (dirCreate st did nm cresp).1 st.nextId =
        (dirCreate st did nm cresp).1 := by
  have hcreate : (dirCreate st did nm cresp).1 =
      overActive
        { nodes := aset st.nodes st.nextId
            { inode := cresp.inode, name := nm, parentId := some did,
              isFile := true, active := [], handles := 1, writers := 1,
              cfilePresent := true },
          nextId := st.nextId + 1 }
        did (fun m => aset m nm
          { node := st.nextId, kernel := false, refs := 0 }) := by
    unfold dirCreate
    rw [hd]
    simp [hcr]
  have hc1 : alookup (getActive (dirCreate st did nm cresp).1 did) nm =
      some { node := st.nextId, kernel := false, refs := 0 } := by
    rw [hcreate]
    rw [getActive_alloc_insert st did d _ nm _ hd hfresh]
    exact alookup_aset_self d.active nm _
  refine ⟨hc1, ?_, ?_, ?_⟩
  · have hlk : (dirLookup st did nm stat).1 =
        overActive
          { nodes := aset st.nodes st.nextId
              (reviveNodeData did stat.inodeType stat.inode nm),
            nextId := st.nextId + 1 }
          did (fun m => aset m nm
            { node := st.nextId, kernel := true, refs := 0 }) := by
      unfold dirLookup
      rw [hd]
      simp only [hml]
      rw [if_neg (by rw [hst]; decide)]
      rw [if_neg (by rw [hst]; simp)]
    rw [hlk]
    rw [getActive_alloc_insert st did d _ nm _ hd hfresh]
    exact alookup_aset_self d.active nm _
  · have hmk : (dirMkdir st did nm mresp).1 =
        overActive
          { nodes := aset st.nodes st.nextId
              { inode := mresp.inode, name := nm, parentId := some did,
                isFile := false, active := [], handles := 0, writers := 0,
                cfilePresent := false },
            nextId := st.nextId + 1 }
          did (fun m => aset m nm
            { node := st.nextId, kernel := true, refs := 0 }) := by
      unfold dirMkdir
      rw [if_neg (by rw [hmr]; decide), if_neg (by rw [hmr]; decide),
        if_neg (by rw [hmr]; decide), if_neg (by rw [hmr]; decide)]
    rw [hmk]
    rw [getActive_alloc_insert st did d _ nm _ hd hfresh]
    exact alookup_aset_self d.active nm _
  · have hchild : getNode (dirCreate st did nm cresp).1 st.nextId =
        some { inode := cresp.inode, name := nm, parentId := some did,
               isFile := true, active := [], handles := 1, writers := 1,
               cfilePresent := true } := by
      rw [hcreate]
      rw [getNode_overActive_ne _ did _ st.nextId (fun h => hfresh h.symm)]
      exact getNode_alloc_self st _
    unfold nodeForget
    rw [hchild]
    simp

/-- C10 witness: on the bare root, `Create "a"` installs the entry with
kernel flag `false` and pending counter 0, `Lookup`/`Mkdir` install with
kernel flag `true`, and a `Forget` for the created child leaves the
state unchanged. -/
theorem create_refcount_flags_witness :
    alookup (getActive (dirCreate rootOnly 0 "a" { ret := 0, inode := 7 }).1
        0) "a" = some { node := 1, kernel := false, refs := 0 }
    ∧ alookup (getActive (dirLookup rootOnly 0 "a"
        { ret := 0, inodeType := true, inode := 7 }).1 0) "a" =
        some { node := 1, kernel := true, refs := 0 }
    ∧ alookup (getActive (dirMkdir rootOnly 0 "a"
        { ret := 0, inode := 7 }).1 0) "a" =
        some { node := 1, kernel := true, refs := 0 }
    ∧ nodeForget (dirCreate rootOnly 0 "a" { ret := 0, inode := 7 }).1 1 =
        (dirCreate rootOnly 0 "a" { ret := 0, inode := 7 }).1 := by
  have h := create_refcount_flags rootOnly 0 (exRoot []) "a"
    { ret := 0, inode := 7 } { ret := 0, inodeType := true, inode := 7 }
    { ret := 0, inode := 7 } (by decide) (by decide) rfl
    (by decide) rfl rfl
  exact h

end ContainerFS
